import Mathlib

/-!
# Verification of the borderless-cli core pipelines

Shallow embedding of the parts of the `borderless-cli` repository that the
claims concern: the link registry (`LinkDb` in `src/api.rs`), the node client
(`Node` in `src/api.rs`), the pack pipeline (`src/cli/pack.rs` together with
the `Manifest` type of `src/template.rs`), the merge pipeline
(`src/cli/merge.rs`) and the deploy pipeline (`src/cli/deploy.rs`).

External serialization libraries (serde_json, toml, url) are out of scope of
the specification; JSON documents are embedded as an explicit `Json` value
type, and `serde_json::to_string` of a record is modelled as producing the
corresponding `Json` value on one line of the line-delimited file (which is
what serde_json does: its compact output never contains a raw newline).
-/

namespace BorderlessCli

/-- JSON values, as produced/consumed by serde_json.  Objects are association
lists of key/value pairs; numbers are not needed by any claim and are kept as
integers. -/
inductive Json where
  | null : Json
  | bool : Bool → Json
  | num : Int → Json
  | str : String → Json
  | arr : List Json → Json
  | obj : List (String × Json) → Json
  deriving Repr, BEq

/-- Field access `Value::get(key)` on a JSON value: field lookup on objects (first binding
wins, matching a parsed JSON map), `None` on every other variant. -/
def Json.get (j : Json) (key : String) : Option Json :=
  match j with
  | .obj kvs => kvs.lookup key
  | _ => none

/-- Accessor `Value::as_str()`: the payload of a string value, `None` otherwise. -/
def Json.asStr : Json → Option String
  | .str s => some s
  | _ => none

/-! ## The `Link` record (`src/api.rs`, lines 25-36)

`Url` is an external type; a parsed `Url` is carried here as its normalized
string form, which is exactly what its serde serialization writes. -/

/-- A named remote-node connection record (`struct Link` in `src/api.rs`). -/
structure Link where
  name : String
  api : String
  api_key : Option String
  deriving Repr, DecidableEq

/-- The serde serialization of a `Link`: a JSON object with the three fields
in declaration order (`#[derive(Serialize)]` on `struct Link`). -/
def Link.toJson (l : Link) : Json :=
  .obj [("name", .str l.name),
        ("api", .str l.api),
        ("api_key", match l.api_key with | some k => .str k | none => .null)]

/-- The serde deserialization of a `Link` (`#[derive(Deserialize)]`): reads
the `name` and `api` string fields and the optional `api_key` field from a
JSON object; fails on anything else. -/
def Link.fromJson (j : Json) : Option Link :=
  match j with
  | .obj kvs => do
      let name ← (kvs.lookup "name").bind Json.asStr
      let api ← (kvs.lookup "api").bind Json.asStr
      let api_key ←
        match kvs.lookup "api_key" with
        | none => some none
        | some .null => some none
        | some (.str s) => some (some s)
        | some _ => none
      pure { name := name, api := api, api_key := api_key }
  | _ => none

/-! ## The link registry (`LinkDb` in `src/api.rs`, lines 41-118)

The in-memory state of an opened registry is its buffered `links : Vec<Link>`;
the backing `LINKS` file is line-delimited JSON, modelled as the list of the
JSON values on its lines (one per line). -/

/-- Operation `LinkDb::contains`: true iff a link with the given name exists. -/
def contains (links : List Link) (name : String) : Bool :=
  links.any (fun l => l.name == name)

/-- Operation `LinkDb::remove_link`: removes the first link whose name matches; when no
link matches it emits a warning and leaves the sequence unchanged, returning
`Ok` either way.  The boolean records whether the warning was emitted. -/
def remove_link (links : List Link) (name : String) : List Link × Bool :=
  match links.findIdx? (fun l => l.name == name) with
  | none => (links, true)
  | some idx => (links.eraseIdx idx, false)

/-- Operation `LinkDb::add_link`: pushes the new link at the back of the sequence. -/
def add_link (links : List Link) (new_link : Link) : List Link :=
  links ++ [new_link]

/-- Operation `LinkDb::modify_link`: `remove_link(name)` followed by
`add_link(new_link)`. -/
def modify_link (links : List Link) (name : String) (new_link : Link) :
    List Link :=
  add_link (remove_link links name).1 new_link

/-- Operation `LinkDb::commit`: truncates the backing file and writes each record as one
JSON object per line, in the current in-memory order. -/
def commit (links : List Link) : List Json :=
  links.map Link.toJson

/-- The parsing loop of `LinkDb::open`: every line of the backing file must
deserialize to a `Link` (otherwise the store is corrupted and opening fails);
the parsed links are accumulated in file order. -/
def openLinks : List Json → Option (List Link)
  | [] => some []
  | j :: rest => do
      let l ← Link.fromJson j
      let ls ← openLinks rest
      pure (l :: ls)

/-- Lookup `links.find(...)` by name: the first record carrying the given name. -/
def lookupLink (links : List Link) (name : String) : Option Link :=
  links.find? (fun l => l.name == name)

/-- Names are pairwise distinct within the registry (the `Link` invariant of
the data model). -/
def distinctNames (links : List Link) : Prop :=
  links.Pairwise (fun a b => a.name ≠ b.name)

instance (links : List Link) : Decidable (distinctNames links) := by
  unfold distinctNames
  infer_instance

/-! ## The deploy pipeline checks (`src/cli/deploy.rs`, lines 14-23)

After selecting a node, `handle_deploy` runs two checks on the introduction
path before reading and parsing the file.  As written in the source the
conditions are not negated: the pipeline bails when `path.exists()` is true
(with the message `"{} does not exist"`) and bails when `path.is_file()` is
true (with the message `"{} is not a file"`); only if both checks fall
through does it call `fs::read`. -/

/-- The introduction-path checks of `handle_deploy`, transcribed as written:
`if path.exists() { bail!(...) }` then `if path.is_file() { bail!(...) }`.
`pathExists`/`pathIsFile` are the results of the two filesystem queries. -/
def deploy_check (path : String) (pathExists pathIsFile : Bool) :
    Except String Unit :=
  if pathExists then .error (path ++ " does not exist")
  else if pathIsFile then .error (path ++ " is not a file")
  else .ok ()

/-! ## The pack pipeline's manifest handling (`src/cli/pack.rs`, lines 33-44,
and `src/template.rs`, lines 12-25) -/

/-- Record `struct PkgInfo` of `src/template.rs`. -/
structure PkgInfo where
  name : String
  app_name : Option String
  app_module : Option String
  deriving Repr, DecidableEq

/-- Type `PkgType` of the external `borderless_pkg` crate: the package is either a
software agent or a smart contract. -/
inductive PkgType where
  | agent : PkgType
  | contract : PkgType
  deriving Repr, DecidableEq

/-- Record `struct Manifest` of `src/template.rs`.  `Capabilities` and `PkgMeta` are
types of the external `borderless_pkg` crate and are abstracted as type
parameters; no claim depends on their content. -/
structure Manifest (Cap Meta : Type) where
  agent : Option PkgInfo
  contract : Option PkgInfo
  capabilities : Option Cap
  meta : Option Meta

/-- The package-type derivation of `handle_pack` (`src/cli/pack.rs`, lines
34-44): match on `(manifest.agent, manifest.contract)`; `(Some, None)` yields
an agent package, `(None, Some)` a contract package, and every other shape
fails. -/
def derive_pkg_type {Cap Meta : Type} (m : Manifest Cap Meta) :
    Except String (PkgType × PkgInfo) :=
  match m.agent, m.contract with
  | some info, none => .ok (.agent, info)
  | none, some info => .ok (.contract, info)
  | _, _ =>
      .error "invalid manifest - either [agent] or [contract] section must be set"

/-! ## The node client (`Node` in `src/api.rs`, lines 120-215) -/

/-- Predicate `StatusCode::is_success` of the external http crate: the 2xx range. -/
def status_is_success (status : Nat) : Bool :=
  200 ≤ status && status < 300

/-- Operation `Node::write_introduction` (`src/api.rs`, lines 148-172) after the POST
request returned a response: when the status is not a success status the
function returns `Ok(false)`; otherwise it parses the response body as JSON
(`respBody` is the `serde_json::from_slice` result, `none` when the body is
not valid JSON), pretty-prints it, and returns `Ok(true)`.  A parse failure
propagates as an error via `?`. -/
def write_introduction (status : Nat) (respBody : Option Json) :
    Except String Bool :=
  if !status_is_success status then .ok false
  else
    match respBody with
    | none => .error "invalid json in response body"
    | some _ => .ok true

/-- The `participant_id` extraction of `Node::network_peers` (`src/api.rs`,
lines 199-203): `cert.get("participant_id").and_then(|s| s.as_str())
.unwrap_or_default()` — the empty string when the field is absent or not a
string. -/
def participant_id_str (cert : Json) : String :=
  ((cert.get "participant_id").bind Json.asStr).getD ""

/-- The `subject` extraction of `Node::network_peers` (`src/api.rs`, lines
205-209): defaults to the empty string when absent or not a string. -/
def subject_str (cert : Json) : String :=
  ((cert.get "subject").bind Json.asStr).getD ""

/-- The per-record loop of `Node::network_peers` (`src/api.rs`, lines
195-213): for each element of the response array, in order, parse its
`participant_id` (the `?` on `.parse()` fails the whole call) and pair the
resulting identifier with the `subject` name.  `BorderlessId` is a type of
the external `borderless` crate; its `FromStr` parser is abstracted as
`parseBid`. -/
def network_peers {Bid : Type} (parseBid : String → Option Bid) :
    List Json → Except String (List (String × Bid))
  | [] => .ok []
  | cert :: rest =>
      match parseBid (participant_id_str cert) with
      | none => .error "failed to parse participant-id"
      | some pid =>
          match network_peers parseBid rest with
          | .error e => .error e
          | .ok out => .ok ((subject_str cert, pid) :: out)

/-- The claim's failure condition for one record of `network_peers`: the
element lacks a `participant_id` string field, or carries one that does not
parse as a participant identifier. -/
def lacks_or_malformed {Bid : Type} (parseBid : String → Option Bid)
    (cert : Json) : Prop :=
  match (cert.get "participant_id").bind Json.asStr with
  | none => True
  | some s => parseBid s = none

/-! ## The merge pipeline (`src/cli/merge.rs`, lines 40-63) -/

/-- Map update `serde_json::Map::insert`: overwrite the binding of `key` when present,
add it otherwise (modelled on the association list of an object, replacing
the binding `lookup` sees). -/
def mapInsert (kvs : List (String × Json)) (key : String) (v : Json) :
    List (String × Json) :=
  match kvs with
  | [] => [(key, v)]
  | (k, w) :: rest =>
      if k == key then (key, v) :: rest else (k, w) :: mapInsert rest key v

/-- The merge step of `handle_merge` after both input files were read:
`introduction` is the parsed introduction document and `pkgValue` is
`serde_json::to_value` of the parsed package descriptor.  When the
introduction is a JSON object, its `"package"` key is set to `pkgValue` and
the merged document is written back; otherwise the pipeline bails (and
writes nothing). -/
def handle_merge (introduction : Json) (pkgValue : Json) : Except String Json :=
  match introduction with
  | .obj kvs => .ok (.obj (mapInsert kvs "package" pkgValue))
  | _ => .error "introduction must be a json-object"

/-! ## The target-directory derivation of the pack pipeline
(`src/cli/pack.rs`, lines 245-264) -/

/-- The tail of `compile_project` after a successful build: the output of
`cargo metadata` is parsed with `serde_json::from_slice` (`parsedMetadata` is
its result, `none` when the output is not valid JSON — in which case the `?`
on the `.context(...)` fails the function); from the parsed value the
`target_directory` string field is taken, falling back to
`work_dir.join("target")` when the field is absent or not a string
(`PathBuf::from_str` is infallible).  The final `canonicalize` of the path is
a filesystem call and is not modelled. -/
def metadata_target_dir (parsedMetadata : Option Json) (workDir : String) :
    Except String String :=
  match parsedMetadata with
  | none => .error "failed to read output of cargo metadata"
  | some metadata =>
      .ok (((metadata.get "target_directory").bind Json.asStr).getD
            (workDir ++ "/target"))

/-! ### Round-trip lemmas -/

theorem link_fromJson_toJson (l : Link) : Link.fromJson l.toJson = some l := by
  obtain ⟨name, api, api_key⟩ := l
  cases api_key with
  | none => simp [Link.toJson, Link.fromJson, List.lookup, Json.asStr]
  | some k => simp [Link.toJson, Link.fromJson, List.lookup, Json.asStr]

theorem openLinks_commit (links : List Link) :
    openLinks (commit links) = some links := by
  induction links with
  | nil => rfl
  | cons l rest ih =>
      have : commit (l :: rest) = l.toJson :: commit rest := rfl
      rw [this]
      simp [openLinks, link_fromJson_toJson, ih]

/-! ### Unfolding and decomposition lemmas for the registry operations -/

theorem remove_link_cons (l : Link) (rest : List Link) (name : String) :
    remove_link (l :: rest) name =
      if l.name == name then (rest, false)
      else ((l :: (remove_link rest name).1), (remove_link rest name).2) := by
  unfold remove_link
  rw [List.findIdx?_cons]
  by_cases h : (l.name == name) = true
  · simp [h]
  · rw [if_neg h, if_neg h, List.findIdx?_succ]
    cases hf : List.findIdx? (fun x => x.name == name) rest with
    | none => simp
    | some j => simp [List.eraseIdx]

theorem contains_eq_false_iff (links : List Link) (name : String) :
    contains links name = false ↔ ∀ x ∈ links, x.name ≠ name := by
  simp [contains]

theorem remove_link_of_not_contains (links : List Link) (name : String)
    (h : contains links name = false) : remove_link links name = (links, true) := by
  have hall : ∀ x ∈ links, (fun l : Link => l.name == name) x = false := by
    intro x hx
    simpa using (contains_eq_false_iff links name).mp h x hx
  unfold remove_link
  rw [List.findIdx?_eq_none_iff.mpr hall]

theorem remove_link_first_match (pre : List Link) (old : Link)
    (post : List Link) (name : String)
    (hpre : ∀ x ∈ pre, x.name ≠ name) (hold : old.name = name) :
    remove_link (pre ++ old :: post) name = (pre ++ post, false) := by
  induction pre with
  | nil => simp [remove_link_cons, hold]
  | cons x xs ih =>
      have hx : (x.name == name) = false := by
        simpa using hpre x (List.mem_cons_self x xs)
      have ih' := ih (fun y hy => hpre y (List.mem_cons_of_mem x hy))
      simp [remove_link_cons, hx, ih']

theorem contains_decomp (links : List Link) (name : String)
    (h : contains links name = true) :
    ∃ pre old post, links = pre ++ old :: post ∧
      (∀ x ∈ pre, x.name ≠ name) ∧ old.name = name := by
  induction links with
  | nil => simp [contains] at h
  | cons l rest ih =>
      by_cases hl : l.name = name
      · exact ⟨[], l, rest, rfl, by simp, hl⟩
      · have hrest : contains rest name = true := by
          simpa [contains, hl] using h
        obtain ⟨pre, old, post, heq, hpre, hold⟩ := ih hrest
        exact ⟨l :: pre, old, post, by simp [heq],
          by
            intro x hx
            rcases List.mem_cons.mp hx with h1 | h2
            · exact h1 ▸ hl
            · exact hpre x h2,
          hold⟩

theorem remove_link_no_match (links : List Link) (name : String)
    (hd : distinctNames links) :
    ∀ x ∈ (remove_link links name).1, x.name ≠ name := by
  induction links with
  | nil => intro x hx; simp [remove_link] at hx
  | cons l rest ih =>
      rw [remove_link_cons]
      by_cases hl : (l.name == name) = true
      · rw [if_pos hl]
        intro x hx
        have hln : l.name = name := by simpa using hl
        have := (List.pairwise_cons.mp hd).1 x hx
        simpa [hln] using this.symm
      · rw [if_neg hl]
        intro x hx
        rcases List.mem_cons.mp hx with h1 | h2
        · subst h1; simpa using hl
        · exact ih (List.pairwise_cons.mp hd).2 x h2

theorem lookupLink_append_no_match (pre : List Link) (suffix : List Link)
    (name : String) (hpre : ∀ x ∈ pre, x.name ≠ name) :
    lookupLink (pre ++ suffix) name = lookupLink suffix name := by
  induction pre with
  | nil => rfl
  | cons x xs ih =>
      have hx : (x.name == name) = false := by
        simpa using hpre x (List.mem_cons_self x xs)
      simp [lookupLink, List.find?, hx] at ih ⊢
      exact ih (fun y hy => hpre y (List.mem_cons_of_mem x hy))

/-! ### Concrete link values used by the witnesses -/

/-- A concrete link. -/
def linkA : Link :=
  { name := "alpha", api := "http://alpha.example/", api_key := none }

/-- A second concrete link with a different name. -/
def linkB : Link :=
  { name := "beta", api := "http://beta.example/", api_key := some "k1" }

/-- A replacement for `linkA` carrying the same name. -/
def linkA2 : Link :=
  { name := "alpha", api := "http://alpha2.example/", api_key := some "k2" }

/-! ## Claim theorems for the link registry -/

/-- C2: for every registry holding links with pairwise-distinct names,
`LinkDb::commit()` — which writes one JSON object per line in the in-memory
order — followed by `LinkDb::open()` on the same backing file yields a
registry containing exactly the same records in the same order. -/
theorem C2_commit_open_roundtrip (links : List Link)
    (h : distinctNames links) :
    openLinks (commit links) = some links :=
  openLinks_commit links

/-- Witness for C2 at a concrete two-link registry. -/
theorem C2_commit_open_roundtrip_witness :
    distinctNames [linkA, linkB] ∧
    openLinks (commit [linkA, linkB]) = some [linkA, linkB] :=
  ⟨by decide, C2_commit_open_roundtrip [linkA, linkB] (by decide)⟩

/-- C3: `LinkDb::remove_link(name)` on a name that matches no link leaves the
in-memory sequence unchanged and returns success (warning only); on a name
that matches, it removes exactly the first matching record and keeps all
other records in their relative order. -/
theorem C3_remove_link_spec (links : List Link) (name : String) :
    (contains links name = false → remove_link links name = (links, true)) ∧
    (∀ pre old post, links = pre ++ old :: post →
      (∀ x ∈ pre, x.name ≠ name) → old.name = name →
      remove_link links name = (pre ++ post, false)) :=
  ⟨remove_link_of_not_contains links name,
   fun pre old post heq hpre hold =>
     heq ▸ remove_link_first_match pre old post name hpre hold⟩

/-- Witness for C3: removing the absent name `"gamma"` is a no-op with a
warning; removing `"beta"` deletes exactly that record. -/
theorem C3_remove_link_spec_witness :
    remove_link [linkA, linkB] "gamma" = ([linkA, linkB], true) ∧
    remove_link [linkA, linkB] "beta" = ([linkA], false) :=
  ⟨(C3_remove_link_spec [linkA, linkB] "gamma").1 (by decide),
   (C3_remove_link_spec [linkA, linkB] "beta").2 [linkA] linkB []
     rfl (by decide) (by decide)⟩

/-- C4: `modify_link(name, new_link)` behaves as `remove_link(name)` followed
by `add_link(new_link)`; after commit and reopen the record with that name
equals `new_link`, and the record count is unchanged when the name existed
before, or incremented by one when it did not. -/
theorem C4_modify_link_spec (links : List Link) (name : String)
    (new_link : Link) (hd : distinctNames links) (hn : new_link.name = name) :
    modify_link links name new_link
      = add_link (remove_link links name).1 new_link ∧
    openLinks (commit (modify_link links name new_link))
      = some (modify_link links name new_link) ∧
    lookupLink (modify_link links name new_link) name = some new_link ∧
    (modify_link links name new_link).length
      = if contains links name then links.length else links.length + 1 := by
  refine ⟨rfl, openLinks_commit _, ?_, ?_⟩
  · have hno := remove_link_no_match links name hd
    unfold modify_link add_link
    rw [lookupLink_append_no_match _ _ _ hno]
    simp [lookupLink, List.find?, hn]
  · by_cases hc : contains links name = true
    · obtain ⟨pre, old, post, heq, hpre, hold⟩ := contains_decomp links name hc
      subst heq
      rw [modify_link, remove_link_first_match pre old post name hpre hold]
      simp only [add_link, hc, if_true]
      simp only [List.length_append, List.length_cons, List.length_nil]
      omega
    · replace hc : contains links name = false := by
        simpa using hc
      rw [modify_link, remove_link_of_not_contains links name hc]
      simp [add_link, hc]

/-- Witness for C4: modifying `"alpha"` in a two-link registry. -/
theorem C4_modify_link_spec_witness :
    modify_link [linkA, linkB] "alpha" linkA2
      = add_link (remove_link [linkA, linkB] "alpha").1 linkA2 ∧
    openLinks (commit (modify_link [linkA, linkB] "alpha" linkA2))
      = some (modify_link [linkA, linkB] "alpha" linkA2) ∧
    lookupLink (modify_link [linkA, linkB] "alpha" linkA2) "alpha"
      = some linkA2 ∧
    (modify_link [linkA, linkB] "alpha" linkA2).length
      = if contains [linkA, linkB] "alpha"
        then ([linkA, linkB] : List Link).length
        else ([linkA, linkB] : List Link).length + 1 :=
  C4_modify_link_spec [linkA, linkB] "alpha" linkA2 (by decide) (by decide)

/-- C10: when the named link exists at any position except the last,
`modify_link` moves the record to the back: the result is the old sequence
with the matching record removed and the new record appended, so the
committed file order differs from the order before the modify, while the
relative order of all other records is preserved. -/
theorem C10_modify_link_reorders (pre : List Link) (old : Link)
    (post : List Link) (name : String) (new_link : Link)
    (hd : distinctNames (pre ++ old :: post))
    (hold : old.name = name) (hpost : post ≠ []) :
    modify_link (pre ++ old :: post) name new_link
      = pre ++ post ++ [new_link] ∧
    pre ++ post ++ [new_link] ≠ pre ++ old :: post ∧
    commit (modify_link (pre ++ old :: post) name new_link)
      ≠ commit (pre ++ old :: post) ∧
    (modify_link (pre ++ old :: post) name new_link).getLast? = some new_link
    := by
  have hd' : (pre ++ old :: post).Pairwise (fun a b => a.name ≠ b.name) := hd
  have hsplit := List.pairwise_append.mp hd'
  have hpre : ∀ x ∈ pre, x.name ≠ name := by
    intro x hx
    have := hsplit.2.2 x hx old (List.mem_cons_self old post)
    simpa [hold] using this
  have heq1 : modify_link (pre ++ old :: post) name new_link
      = pre ++ post ++ [new_link] := by
    rw [modify_link, remove_link_first_match pre old post name hpre hold]
    simp [add_link]
  have hneq : pre ++ post ++ [new_link] ≠ pre ++ old :: post := by
    intro h
    obtain ⟨q, post', rfl⟩ := List.exists_cons_of_ne_nil hpost
    rw [List.append_assoc] at h
    have h2 := List.append_cancel_left h
    simp only [List.cons_append, List.cons.injEq] at h2
    obtain ⟨hq, h3⟩ := h2
    have hqmem : q ∈ q :: post' := List.mem_cons_self q post'
    have := (List.pairwise_cons.mp hsplit.2.1).1 q hqmem
    exact this (by rw [hq])
  refine ⟨heq1, hneq, ?_, ?_⟩
  · intro h
    have := congrArg openLinks h
    rw [openLinks_commit, openLinks_commit] at this
    exact hneq (heq1 ▸ Option.some.inj this)
  · rw [heq1, List.append_assoc, ← List.append_assoc]
    exact List.getLast?_concat _

/-- Witness for C10: modifying `"alpha"`, which sits at the first of two
positions, moves its record to the back. -/
theorem C10_modify_link_reorders_witness :
    modify_link ([] ++ linkA :: [linkB]) "alpha" linkA2
      = [] ++ [linkB] ++ [linkA2] ∧
    ([] : List Link) ++ [linkB] ++ [linkA2] ≠ [] ++ linkA :: [linkB] ∧
    commit (modify_link ([] ++ linkA :: [linkB]) "alpha" linkA2)
      ≠ commit ([] ++ linkA :: [linkB]) ∧
    (modify_link ([] ++ linkA :: [linkB]) "alpha" linkA2).getLast?
      = some linkA2 :=
  C10_modify_link_reorders [] linkA [linkB] "alpha" linkA2
    (by decide) (by decide) (by decide)

/-! ## Claim theorems for the deploy and pack pipelines -/

/-- C1: the introduction-path checks of `handle_deploy` are inverted in the
source: for an existing regular file (both filesystem queries true) the
pipeline bails with the message "... does not exist" instead of proceeding to
read and parse the file — contradicting the specification and the check's own
error message — while the checks fall through exactly when the path does not
exist, where the subsequent read must fail. -/
theorem C1_deploy_check_rejects_existing_file :
    deploy_check "introduction.json" true true
      = .error "introduction.json does not exist" ∧
    deploy_check "introduction.json" false false = .ok () :=
  ⟨rfl, rfl⟩

/-- C5: the pack pipeline derives a package type successfully iff exactly one
of the agent/contract sections of the manifest is present: agent-only yields
an Agent package, contract-only yields a Contract package, and the both-set
and neither-set shapes fail with the manifest-shape error. -/
theorem C5_pack_type_derivation {Cap Meta : Type} (m : Manifest Cap Meta) :
    (∀ info, m.agent = some info → m.contract = none →
        derive_pkg_type m = .ok (.agent, info)) ∧
    (∀ info, m.agent = none → m.contract = some info →
        derive_pkg_type m = .ok (.contract, info)) ∧
    ((m.agent = none ∧ m.contract = none) ∨
        (∃ a c, m.agent = some a ∧ m.contract = some c) →
      derive_pkg_type m
        = .error
          "invalid manifest - either [agent] or [contract] section must be set")
    := by
  obtain ⟨a, c, cap, mt⟩ := m
  refine ⟨?_, ?_, ?_⟩
  · rintro info rfl rfl; rfl
  · rintro info rfl rfl; rfl
  · rintro (⟨rfl, rfl⟩ | ⟨x, y, rfl, rfl⟩) <;> rfl

/-- Witness for C5: an agent-only manifest succeeds, a neither-set manifest
fails. -/
theorem C5_pack_type_derivation_witness :
    derive_pkg_type
        ({ agent := some { name := "demo", app_name := none, app_module := none },
           contract := none, capabilities := none, meta := none }
          : Manifest Unit Unit)
      = .ok (.agent, { name := "demo", app_name := none, app_module := none }) ∧
    derive_pkg_type
        ({ agent := none, contract := none, capabilities := none, meta := none }
          : Manifest Unit Unit)
      = .error
        "invalid manifest - either [agent] or [contract] section must be set" :=
  ⟨(C5_pack_type_derivation _).1 _ rfl rfl,
   (C5_pack_type_derivation _).2.2 (Or.inl ⟨rfl, rfl⟩)⟩

/-! ## Claim theorems for the node client -/

/-- Counterexample to C6 as stated: a response with success status 200 whose
body is not valid JSON makes `write_introduction` propagate the parse failure
as an error — not return `Ok(true)` — so the boolean result is not `true` for
every success status. -/
theorem C6_success_status_without_json_body :
    write_introduction 200 none = .error "invalid json in response body" ∧
    write_introduction 200 none ≠ .ok true :=
  ⟨rfl, by simp [write_introduction, status_is_success]⟩

/-- C6 amended: `write_introduction` returns `Ok(false)` whenever the status
is not a success status (never an error for non-2xx); when the status is a
success status and the response body parses as JSON it returns `Ok(true)`;
and `Ok(true)` is returned only for a success status.  The sole deviation
from the claim is a success status with an unparsable body, which errors. -/
theorem C6_write_introduction_amended (status : Nat) (respBody : Option Json) :
    (status_is_success status = false →
        write_introduction status respBody = .ok false) ∧
    (status_is_success status = true → respBody.isSome = true →
        write_introduction status respBody = .ok true) ∧
    (write_introduction status respBody = .ok true →
        status_is_success status = true) := by
  refine ⟨?_, ?_, ?_⟩
  · intro h
    simp [write_introduction, h]
  · intro h hb
    obtain ⟨j, rfl⟩ := Option.isSome_iff_exists.mp hb
    simp [write_introduction, h]
  · intro h
    cases hs : status_is_success status with
    | true => rfl
    | false => simp [write_introduction, hs] at h

/-- Witness for C6 amended: a 404 yields `Ok(false)`; a 200 with a JSON body
yields `Ok(true)`. -/
theorem C6_write_introduction_amended_witness :
    write_introduction 404 none = .ok false ∧
    write_introduction 200 (some (.obj [])) = .ok true :=
  ⟨(C6_write_introduction_amended 404 none).1 (by decide),
   (C6_write_introduction_amended 200 (some (.obj []))).2.1 (by decide) rfl⟩

theorem parse_of_lacks {Bid : Type} (parseBid : String → Option Bid)
    (cert : Json) (hempty : parseBid "" = none)
    (h : lacks_or_malformed parseBid cert) :
    parseBid (participant_id_str cert) = none := by
  unfold lacks_or_malformed at h
  cases hc : (cert.get "participant_id").bind Json.asStr with
  | none => simp [participant_id_str, hc, hempty]
  | some s =>
      rw [hc] at h
      simp [participant_id_str, hc, h]

theorem parse_of_not_lacks {Bid : Type} (parseBid : String → Option Bid)
    (cert : Json) (h : ¬ lacks_or_malformed parseBid cert) :
    ∃ b, parseBid (participant_id_str cert) = some b := by
  unfold lacks_or_malformed at h
  cases hc : (cert.get "participant_id").bind Json.asStr with
  | none => rw [hc] at h; exact absurd trivial h
  | some s =>
      rw [hc] at h
      cases hp : parseBid s with
      | none => exact absurd hp h
      | some b => exact ⟨b, by simp [participant_id_str, hc, hp]⟩

/-- C7: `network_peers` fails the whole call — returning no partial result —
as soon as one element of the response array lacks a `participant_id` string
field or carries one that does not parse; when every element carries a valid
`participant_id`, it returns one (name, identifier) pair per element in the
order received.  `parseBid` abstracts the external `BorderlessId` parser; the
hypothesis that the empty string never parses reflects its fixed format. -/
theorem C7_network_peers_spec {Bid : Type} (parseBid : String → Option Bid)
    (certs : List Json) (hempty : parseBid "" = none) :
    ((∃ c ∈ certs, lacks_or_malformed parseBid c) →
        network_peers parseBid certs
          = .error "failed to parse participant-id") ∧
    ((∀ c ∈ certs, ¬ lacks_or_malformed parseBid c) →
        ∃ out, network_peers parseBid certs = .ok out ∧
          out.map (fun p => (p.1, some p.2)) =
            certs.map (fun c =>
              (subject_str c, parseBid (participant_id_str c)))) := by
  induction certs with
  | nil =>
      refine ⟨?_, ?_⟩
      · rintro ⟨c, hc, -⟩
        simp at hc
      · intro _
        exact ⟨[], rfl, rfl⟩
  | cons c rest ih =>
      refine ⟨?_, ?_⟩
      · rintro ⟨x, hx, hlx⟩
        rcases List.mem_cons.mp hx with rfl | hxr
        · have := parse_of_lacks parseBid x hempty hlx
          simp [network_peers, this]
        · cases hp : parseBid (participant_id_str c) with
          | none => simp [network_peers, hp]
          | some b =>
              have herr := ih.1 ⟨x, hxr, hlx⟩
              simp [network_peers, hp, herr]
      · intro hall
        obtain ⟨b, hb⟩ :=
          parse_of_not_lacks parseBid c (hall c (List.mem_cons_self c rest))
        obtain ⟨out, hout, hmap⟩ :=
          ih.2 (fun x hx => hall x (List.mem_cons_of_mem c hx))
        refine ⟨(subject_str c, b) :: out, ?_, ?_⟩
        · simp [network_peers, hb, hout]
        · simp [List.map, hmap, hb]

/-- A concrete participant-id parser for the C7 witness: accepts every
nonempty string. -/
def demoParseBid (s : String) : Option String :=
  if s = "" then none else some s

/-- Witness for C7: an array whose element lacks `participant_id` fails the
whole call; a well-formed array yields the (subject, id) pairs. -/
theorem C7_network_peers_spec_witness :
    network_peers demoParseBid [Json.obj [("subject", Json.str "n1")]]
      = .error "failed to parse participant-id" ∧
    ∃ out,
      network_peers demoParseBid
          [Json.obj [("participant_id", Json.str "p1"),
                     ("subject", Json.str "n1")]]
        = .ok out ∧
      out.map (fun p => (p.1, some p.2)) =
        [Json.obj [("participant_id", Json.str "p1"),
                   ("subject", Json.str "n1")]].map
          (fun c => (subject_str c, demoParseBid (participant_id_str c))) := by
  constructor
  · exact (C7_network_peers_spec demoParseBid _ rfl).1
      ⟨Json.obj [("subject", Json.str "n1")], by simp, by
        unfold lacks_or_malformed
        simp [Json.get, List.lookup]⟩
  · exact (C7_network_peers_spec demoParseBid _ rfl).2
      (by
        intro c hc
        simp at hc
        subst hc
        unfold lacks_or_malformed
        simp [Json.get, List.lookup, Json.asStr, demoParseBid])

/-! ## Claim theorems for the merge pipeline -/

theorem lookup_mapInsert_self (kvs : List (String × Json)) (key : String)
    (v : Json) : (mapInsert kvs key v).lookup key = some v := by
  induction kvs with
  | nil => simp [mapInsert, List.lookup]
  | cons kw rest ih =>
      obtain ⟨k, w⟩ := kw
      by_cases h : k = key
      · subst h
        simp [mapInsert, List.lookup]
      · have hbeq : (k == key) = false := by simpa using h
        have hbeq' : (key == k) = false := by
          simpa using fun e => h e.symm
        simp [mapInsert, hbeq, List.lookup, hbeq', ih]

theorem lookup_mapInsert_ne (kvs : List (String × Json)) (key j : String)
    (v : Json) (hj : j ≠ key) :
    (mapInsert kvs key v).lookup j = kvs.lookup j := by
  have hjb : (j == key) = false := by simpa using hj
  induction kvs with
  | nil => simp [mapInsert, List.lookup, hjb]
  | cons kw rest ih =>
      obtain ⟨k, w⟩ := kw
      by_cases h : k = key
      · subst h
        simp [mapInsert, List.lookup, hjb]
      · have hbeq : (k == key) = false := by simpa using h
        by_cases hjk : j = k
        · subst hjk
          simp [mapInsert, hbeq, List.lookup]
        · have hjkb : (j == k) = false := by simpa using hjk
          simp [mapInsert, hbeq, List.lookup, hjkb, ih]

/-- C8: for an introduction document that parses as a JSON object, the merge
step succeeds and produces the introduction object with its "package" key set
(inserted or overwritten) to the serialized descriptor, while every other
top-level key keeps exactly the value it had before; when the introduction's
top-level value is not a JSON object, the merge fails (and nothing is
written). -/
theorem C8_merge_frame (introduction pkgValue : Json) :
    (∀ kvs, introduction = Json.obj kvs →
        (handle_merge introduction pkgValue).isOk = true) ∧
    (∀ merged, handle_merge introduction pkgValue = .ok merged →
        merged.get "package" = some pkgValue ∧
        ∀ k, k ≠ "package" → merged.get k = introduction.get k) ∧
    ((∀ kvs, introduction ≠ Json.obj kvs) →
        handle_merge introduction pkgValue
          = .error "introduction must be a json-object") := by
  refine ⟨?_, ?_, ?_⟩
  · rintro kvs rfl
    rfl
  · intro merged hm
    cases introduction with
    | obj kvs =>
        have : merged = Json.obj (mapInsert kvs "package" pkgValue) := by
          simpa [handle_merge] using hm.symm
        subst this
        constructor
        · simpa [Json.get] using lookup_mapInsert_self kvs "package" pkgValue
        · intro k hk
          simpa [Json.get] using
            lookup_mapInsert_ne kvs "package" k pkgValue hk
    | null => simp [handle_merge] at hm
    | bool b => simp [handle_merge] at hm
    | num n => simp [handle_merge] at hm
    | str s => simp [handle_merge] at hm
    | arr xs => simp [handle_merge] at hm
  · intro h
    cases introduction with
    | obj kvs => exact absurd rfl (h kvs)
    | null => rfl
    | bool b => rfl
    | num n => rfl
    | str s => rfl
    | arr xs => rfl

/-- The introduction object of the specification's merge example. -/
def introEx : Json :=
  Json.obj [("participants", Json.arr []), ("package", Json.obj [])]

/-- The package-descriptor value of the specification's merge example. -/
def pkgEx : Json :=
  Json.obj [("name", Json.str "x")]

/-- The expected merge result of the specification's merge example. -/
def mergedEx : Json :=
  Json.obj [("participants", Json.arr []), ("package", pkgEx)]

/-- Witness for C8 at the specification's example: the "package" key is
overwritten with the descriptor and "participants" keeps its value. -/
theorem C8_merge_frame_witness :
    (handle_merge introEx pkgEx).isOk = true ∧
    mergedEx.get "package" = some pkgEx ∧
    mergedEx.get "participants" = introEx.get "participants" := by
  refine ⟨(C8_merge_frame introEx pkgEx).1 _ rfl, ?_, ?_⟩
  · exact ((C8_merge_frame introEx pkgEx).2.1 mergedEx rfl).1
  · exact ((C8_merge_frame introEx pkgEx).2.1 mergedEx rfl).2
      "participants" (by decide)

/-! ## Claim theorems for the target-directory derivation -/

/-- Counterexample to C9 as stated: when the output of the build-metadata
query is not valid JSON (the parse yields nothing), `compile_project` fails
with the parse error instead of falling back to the conventional `target`
subdirectory of the project directory. -/
theorem C9_unparsable_metadata_fails :
    metadata_target_dir none "/work"
      = .error "failed to read output of cargo metadata" ∧
    metadata_target_dir none "/work" ≠ .ok "/work/target" :=
  ⟨rfl, by simp [metadata_target_dir]⟩

/-- C9 amended: the fallback to the conventional `target` subdirectory
applies when the metadata output parses as JSON but its `target_directory`
field is absent or not a string; a present string field is used as is; and
metadata output that is not valid JSON fails the pack operation instead of
falling back. -/
theorem C9_metadata_fallback_amended (metadata : Json) (workDir : String) :
    ((metadata.get "target_directory").bind Json.asStr = none →
        metadata_target_dir (some metadata) workDir
          = .ok (workDir ++ "/target")) ∧
    (∀ s, (metadata.get "target_directory").bind Json.asStr = some s →
        metadata_target_dir (some metadata) workDir = .ok s) ∧
    metadata_target_dir none workDir
      = .error "failed to read output of cargo metadata" := by
  refine ⟨?_, ?_, rfl⟩
  · intro h
    simp [metadata_target_dir, h]
  · intro s h
    simp [metadata_target_dir, h]

/-- Witness for C9 amended: an empty metadata object falls back to the
`target` subdirectory; a metadata object with a `target_directory` string
uses it. -/
theorem C9_metadata_fallback_amended_witness :
    metadata_target_dir (some (Json.obj [])) "/work" = .ok "/work/target" ∧
    metadata_target_dir
        (some (Json.obj [("target_directory", Json.str "/cache/t")])) "/work"
      = .ok "/cache/t" :=
  ⟨(C9_metadata_fallback_amended (Json.obj []) "/work").1 rfl,
   (C9_metadata_fallback_amended
      (Json.obj [("target_directory", Json.str "/cache/t")]) "/work").2.1
      "/cache/t" rfl⟩

end BorderlessCli
